import Mathlib

/-!
Shallow embedding of `src/app.py` (a Flask product-image processor).

The program decodes uploaded images with PIL, runs each through a
configurable pipeline (normalize to RGB, contain-resize, background
removal via `rembg`, enhancement), encodes the results and returns them
zipped.  External image primitives (PIL `convert`, `paste`, `thumbnail`,
the `ImageEnhance` filters and the `rembg` model) are modelled
syntactically: each primitive records its application in the pixel data,
and preserves or sets the mode/size exactly as the real library does.
Fallible externals (`Image.open`, `rembg.remove`, `Image.save`) are
parameters returning `Except`.
-/

namespace ImgProc

/-- PIL color-mode tags (only the modes the program can meet matter). -/
inductive Mode where
  | RGB
  | RGBA
  | L
  | P
  | CMYK
  deriving DecidableEq, Repr

/-- Kinds of `PIL.ImageEnhance` filters used by `_enhance_image`. -/
inductive EnhanceKind where
  | contrast
  | brightness
  | sharpness
  deriving DecidableEq, Repr

/-- Syntactic pixel payload: every image primitive records itself here.
`fill r g b a` is a constant-color canvas; `pastedMask` is a paste with an
alpha-channel mask; `band i d` is `split()[i]`; `enhanced k f10 d` is an
enhancement filter applied with factor `f10 / 10`. -/
inductive PixData where
  | source (id : Nat)
  | converted (m : Mode) (d : PixData)
  | thumbnail (w h : Nat) (d : PixData)
  | fill (r g b a : Nat)
  | pasted (bg fg : PixData)
  | pastedMask (bg fg mask : PixData)
  | band (i : Nat) (d : PixData)
  | enhanced (k : EnhanceKind) (f10 : Nat) (d : PixData)
  deriving DecidableEq, Repr

/-- An in-memory decoded bitmap: mode tag, pixel dimensions, pixel data. -/
structure Image where
  mode : Mode
  width : Nat
  height : Nat
  data : PixData
  deriving DecidableEq, Repr

/-- Model of `PIL.Image.convert`: same size, new mode. -/
def Image.convert (image : Image) (m : Mode) : Image :=
  ⟨m, image.width, image.height, .converted m image.data⟩

/-- Hex digit value, as PIL's color parser reads `#RRGGBB` strings. -/
def hexVal (c : Char) : Nat :=
  let n := c.toNat
  if 48 ≤ n ∧ n ≤ 57 then n - 48
  else if 97 ≤ n ∧ n ≤ 102 then n - 87
  else if 65 ≤ n ∧ n ≤ 70 then n - 55
  else 0

/-- Model of PIL color-string resolution, covering the color literals the
program uses: named `white` and `#RRGGBB` hex triples (PIL resolves both
to the same RGB value, e.g. `white` = `#FFFFFF` = (255,255,255)). -/
def parseColor (s : String) : Nat × Nat × Nat :=
  let cs := s.toList
  if s = "white" then (255, 255, 255)
  else if cs.getD 0 ' ' = '#' ∧ cs.length = 7 then
    (16 * hexVal (cs.getD 1 '0') + hexVal (cs.getD 2 '0'),
     16 * hexVal (cs.getD 3 '0') + hexVal (cs.getD 4 '0'),
     16 * hexVal (cs.getD 5 '0') + hexVal (cs.getD 6 '0'))
  else (0, 0, 0)

/-- Constant-color canvas data for an opaque color triple. -/
def colorFill (c : Nat × Nat × Nat) : PixData :=
  .fill c.1 c.2.1 c.2.2 255

/-- Model of `PIL.Image.new(mode, (w, h), color-string)`. -/
def Image.new (m : Mode) (w h : Nat) (color : String) : Image :=
  ⟨m, w, h, colorFill (parseColor color)⟩

/-- Model of `background.paste(im, mask=...)` at the default box (0,0):
the background keeps its mode and size, the pixel data records the paste. -/
def Image.paste (bg : Image) (fg : Image) (mask : PixData) : Image :=
  ⟨bg.mode, bg.width, bg.height, .pastedMask bg.data fg.data mask⟩

/-- Model of `resizeimage.resize_contain(image, [w, h])` from
python-resize-image: thumbnail the copy into the box (aspect preserved),
paste it centered onto a fresh `RGBA` canvas of exactly `(w, h)` filled
with `(255, 255, 255, 0)`, and return `background.convert('RGBA')`. -/
def resize_contain (image : Image) (w h : Nat) : Image :=
  ⟨.RGBA, w, h,
    .converted .RGBA (.pasted (.fill 255 255 255 0) (.thumbnail w h image.data))⟩

/-- Model of `ImageEnhance.<k>(image).enhance(f10 / 10)`: same mode and
size, pixel data transformed. -/
def enhancePrim (k : EnhanceKind) (f10 : Nat) (image : Image) : Image :=
  ⟨image.mode, image.width, image.height, .enhanced k f10 image.data⟩

/-- Errors are Python exception messages. -/
abbrev Err := String

/-- Encoded image payloads are abstract tokens. -/
abbrev Bytes := Nat

/-! ## Configuration (app.py lines 27-47, typed view used by the pipeline) -/

structure Dimensions where
  width : Nat
  height : Nat
  deriving DecidableEq, Repr

structure Operations where
  resize : Bool
  remove_background : Bool
  enhance : Bool
  watermark : Bool
  deriving DecidableEq, Repr

structure Backgrounds where
  default_color : String
  gradient : Bool
  deriving DecidableEq, Repr

structure Config where
  dimensions : Dimensions
  output_format : String
  quality : Nat
  operations : Operations
  backgrounds : Backgrounds
  deriving DecidableEq, Repr

/-- The `default_config` record of `_load_config` (app.py lines 28-42),
typed view. -/
def default_config_record : Config :=
  ⟨⟨1200, 1200⟩, "JPEG", 95, ⟨true, false, true, false⟩, ⟨"#FFFFFF", false⟩⟩

/-! ## Configuration loader (app.py lines 27-47, dict-level view)

`_load_config` manipulates the configuration as a YAML/dict value:
`{**default_config, **yaml.safe_load(f)}`.  The dict level is modelled
with an association list and a YAML value type. -/

/-- Parsed YAML values (the shapes a config file can hold). -/
inductive Yaml where
  | null
  | bool (b : Bool)
  | nat (n : Nat)
  | str (s : String)
  | mapping (entries : List (String × Yaml))

/-- The `default_config` dict literal of app.py lines 28-42. -/
def default_config : List (String × Yaml) :=
  [("dimensions", .mapping [("width", .nat 1200), ("height", .nat 1200)]),
   ("output_format", .str "JPEG"),
   ("quality", .nat 95),
   ("operations", .mapping
     [("resize", .bool true), ("remove_background", .bool false),
      ("enhance", .bool true), ("watermark", .bool false)]),
   ("backgrounds", .mapping
     [("default_color", .str "#FFFFFF"), ("gradient", .bool false)])]

/-- Python's `{**d, **o}`: the keys of `d` in order, values overridden by
`o` where `o` has the key, then the keys of `o` absent from `d`.  (YAML
mappings have unique keys, so duplicate-key subtleties do not arise.) -/
def mergeDicts (d o : List (String × Yaml)) : List (String × Yaml) :=
  d.map (fun kv =>
    match o.lookup kv.1 with
    | some v => (kv.1, v)
    | none => kv)
  ++ o.filter (fun kv => (d.lookup kv.1).isNone)

/-- Model of `_load_config` (app.py lines 27-47).  `fs` maps a path that
names an existing file to its parsed YAML content (`Path.exists` plus
`yaml.safe_load`).  Python's `if config_path and Path(config_path).exists()`
treats `None` and the empty string as falsy; merging the defaults with a
non-mapping value (`{**default_config, **v}`) raises `TypeError`. -/
def load_config (fs : String → Option Yaml) (config_path : Option String) :
    Except Err (List (String × Yaml)) :=
  match config_path with
  | none => .ok default_config
  | some p =>
    if p = "" then .ok default_config
    else
      match fs p with
      | none => .ok default_config
      | some y =>
        match y with
        | .mapping m => .ok (mergeDicts default_config m)
        | _ => .error "TypeError: parsed config is not a mapping"

/-! ## Pipeline (app.py lines 49-113) -/

/-- The unconditional RGB normalization of app.py lines 52-54 (and the
final normalize of lines 80-82): `if image.mode != 'RGB': image =
image.convert('RGB')`. -/
def normalizeRGB (image : Image) : Image :=
  if image.mode ≠ .RGB then image.convert .RGB else image

/-- The background-removal stage of `process_image` (app.py lines 64-74):
run `rembg.remove`, then if the output mode is `RGBA`, composite it over
a fresh white `RGB` canvas of the same size using the alpha channel
`image.split()[3]` as the paste mask. -/
def removalStage (removeFn : Image → Except Err Image) (cfg : Config)
    (image : Image) : Except Err Image :=
  if cfg.operations.remove_background then
    match removeFn image with
    | .error e => .error e
    | .ok image =>
      if image.mode = .RGBA then
        let background := Image.new .RGB image.width image.height "white"
        .ok (background.paste image (.band 3 image.data))
      else .ok image
  else .ok image

/-- Modelled from the spec (§4.2 step 3): the spec says the composite
background is "an opaque background of the configured fill color", i.e.
`backgrounds.default_color`, rather than the source's literal `'white'`.
This definition follows the spec's words, for comparison with
`removalStage`. -/
def composite_spec (cfg : Config) (image : Image) : Image :=
  if image.mode = .RGBA then
    let background :=
      Image.new .RGB image.width image.height cfg.backgrounds.default_color
    background.paste image (.band 3 image.data)
  else image

/-- Model of `_enhance_image` (app.py lines 90-113): re-normalize to RGB,
then contrast ×1.2, brightness ×1.1, sharpness ×1.1, each applied to the
previous output (factors recorded ×10 to stay in `Nat`). -/
def enhance_image (image : Image) : Image :=
  let image := if image.mode ≠ .RGB then image.convert .RGB else image
  let image := enhancePrim .contrast 12 image
  let image := enhancePrim .brightness 11 image
  enhancePrim .sharpness 11 image

/-- The resize stage of `process_image` (app.py lines 56-62):
`resizeimage.resize_contain` to the configured dimensions when
`operations.resize` is set. -/
def resizeStage (cfg : Config) (image : Image) : Image :=
  if cfg.operations.resize then
    resize_contain image cfg.dimensions.width cfg.dimensions.height
  else image

/-- The enhancement stage of `process_image` (app.py lines 76-78):
`_enhance_image` when `operations.enhance` is set. -/
def enhanceStage (cfg : Config) (image : Image) : Image :=
  if cfg.operations.enhance then enhance_image image else image

/-- Model of `process_image` (app.py lines 49-88): normalize to RGB;
contain-resize to the configured dimensions if `operations.resize`;
background removal if `operations.remove_background`; enhance if
`operations.enhance`; final normalize to RGB.  Exceptions propagate. -/
def process_image (removeFn : Image → Except Err Image) (cfg : Config)
    (image : Image) : Except Err Image :=
  match removalStage removeFn cfg (resizeStage cfg (normalizeRGB image)) with
  | .error e => .error e
  | .ok i3 => .ok (normalizeRGB (enhanceStage cfg i3))

/-- Model of `save_image` (app.py lines 115-137): convert to RGB first
when the format is JPEG and the mode is not RGB, then serialize at the
configured quality.  `encodePrim format quality image` models
`image.save(buffer, format=..., quality=...)`. -/
def save_image (encodePrim : String → Nat → Image → Except Err Bytes)
    (cfg : Config) (image : Image) (output_format : String) :
    Except Err Bytes :=
  let image :=
    if output_format.toUpper = "JPEG" ∧ image.mode ≠ .RGB then
      image.convert .RGB
    else image
  encodePrim output_format cfg.quality image

/-! ## Batch handler (app.py lines 216-270) -/

/-- One multipart file part: Flask filename and an abstract byte stream. -/
structure UploadedFile where
  filename : String
  stream : Nat
  deriving DecidableEq, Repr

/-- A `POST /process` request: the set of form field names present
(checkbox semantics: presence = true), and the `images` file list when
the field is present. -/
structure Request where
  form : List String
  files : Option (List UploadedFile)

/-- Response bodies: plain text, or a zip archive of named entries with a
download filename. -/
inductive Body where
  | text (s : String)
  | zip (entries : List (String × Bytes)) (download_name : String)
  deriving DecidableEq, Repr

structure Response where
  status : Nat
  body : Body
  deriving DecidableEq, Repr

/-- Entries of a zip response body. -/
def archiveEntries : Body → List (String × Bytes)
  | .text _ => []
  | .zip entries _ => entries

/-- The `processor.config['operations'].update({...})` of app.py lines
221-225: set the three flags from form-field presence, leave the rest. -/
def updateOps (cfg : Config) (form : List String) : Config :=
  { cfg with
    operations :=
      { cfg.operations with
        resize := form.contains "resize"
        remove_background := form.contains "remove_background"
        enhance := form.contains "enhance" } }

/-- The per-file try block of app.py lines 238-253: decode
(`Image.open`), process, encode with the configured output format. -/
def fileResult (decode : Nat → Except Err Image)
    (removeFn : Image → Except Err Image)
    (encodePrim : String → Nat → Image → Except Err Bytes)
    (cfg : Config) (f : UploadedFile) : Except Err Bytes :=
  match decode f.stream with
  | .error e => .error e
  | .ok img =>
    match process_image removeFn cfg img with
    | .error e => .error e
    | .ok pimg => save_image encodePrim cfg pimg cfg.output_format

/-- The file loop of app.py lines 236-256.  `stamp` models the monotone
clock: `datetime.now()` is read once per successful file (tick `t`), so
the entry name is `processed_<stamp t>_<filename>`.  A file with a falsy
(empty) filename is skipped silently; a file whose try block raises is
skipped with an `Error processing <name>: <e>` log line.  Returns the
archive entries, the error log, and the final clock tick. -/
def processLoop (step : UploadedFile → Except Err Bytes)
    (stamp : Nat → String) :
    List UploadedFile → Nat → List (String × Bytes) × List String × Nat
  | [], t => ([], [], t)
  | f :: rest, t =>
    if f.filename = "" then processLoop step stamp rest t
    else
      match step f with
      | .ok b =>
        let out := processLoop step stamp rest (t + 1)
        (("processed_" ++ stamp t ++ "_" ++ f.filename, b) :: out.1, out.2)
      | .error e =>
        let out := processLoop step stamp rest t
        (out.1, ("Error processing " ++ f.filename ++ ": " ++ e) :: out.2.1,
         out.2.2)

/-- Model of the `/process` handler `process_images` (app.py lines
216-270).  It first mutates the process-wide configuration's operation
flags from the form, then answers 400 if the `images` field is absent,
and otherwise runs the file loop and returns the zip with a 200.
Returns the new process-wide configuration, the response, and the error
log lines. -/
def process_images (decode : Nat → Except Err Image)
    (removeFn : Image → Except Err Image)
    (encodePrim : String → Nat → Image → Except Err Bytes)
    (stamp : Nat → String) (cfg : Config) (req : Request) :
    Config × Response × List String :=
  let cfg2 := updateOps cfg req.form
  match req.files with
  | none => (cfg2, ⟨400, .text "No files uploaded"⟩, [])
  | some files =>
    let out := processLoop (fileResult decode removeFn encodePrim cfg2)
      stamp files 0
    (cfg2,
     ⟨200, .zip out.1 ("processed_images_" ++ stamp out.2.2 ++ ".zip")⟩,
     out.2.1)

end ImgProc

namespace ImgProc

/-! ## Helper lemmas about the pipeline stages -/

theorem normalizeRGB_mode (image : Image) : (normalizeRGB image).mode = .RGB := by
  by_cases h : image.mode = Mode.RGB
  · simp [normalizeRGB, h]
  · simp [normalizeRGB, h, Image.convert]

theorem normalizeRGB_size (image : Image) :
    (normalizeRGB image).width = image.width ∧
    (normalizeRGB image).height = image.height := by
  by_cases h : image.mode = Mode.RGB <;>
    simp [normalizeRGB, h, Image.convert]

theorem enhance_image_size (image : Image) :
    (enhance_image image).width = image.width ∧
    (enhance_image image).height = image.height := by
  by_cases h : image.mode = Mode.RGB <;>
    simp [enhance_image, h, enhancePrim, Image.convert]

theorem enhanceStage_size (cfg : Config) (image : Image) :
    (enhanceStage cfg image).width = image.width ∧
    (enhanceStage cfg image).height = image.height := by
  by_cases h : cfg.operations.enhance = true
  · simp only [enhanceStage, h, if_true]
    exact enhance_image_size image
  · simp only [enhanceStage, h, if_false]
    exact ⟨rfl, rfl⟩

theorem removalStage_size (removeFn : Image → Except Err Image) (cfg : Config)
    (image out : Image)
    (hrem : ∀ i r, removeFn i = .ok r → r.width = i.width ∧ r.height = i.height)
    (h : removalStage removeFn cfg image = .ok out) :
    out.width = image.width ∧ out.height = image.height := by
  unfold removalStage at h
  split at h
  · split at h
    · exact Except.noConfusion h
    · rename_i r hr
      obtain ⟨hw, hh⟩ := hrem image r hr
      split at h
      · injection h with h
        subst h
        exact ⟨hw, hh⟩
      · injection h with h
        subst h
        exact ⟨hw, hh⟩
  · injection h with h
    subst h
    exact ⟨rfl, rfl⟩

/-! ## Claim theorems -/

/-- C1: for every input image and every combination of the operations
flags (resize, remove_background, enhance), the image returned by the
pipeline's `process_image` has color mode RGB. -/
theorem process_image_output_mode_rgb
    (removeFn : Image → Except Err Image) (cfg : Config) (image out : Image)
    (h : process_image removeFn cfg image = .ok out) : out.mode = .RGB := by
  unfold process_image at h
  split at h
  · exact Except.noConfusion h
  · injection h with h
    subst h
    exact normalizeRGB_mode _

/-- A model of `rembg.remove`: returns an RGBA image of the same size. -/
def removeFnW : Image → Except Err Image :=
  fun i => .ok ⟨.RGBA, i.width, i.height, .band 0 i.data⟩

/-- A configuration with every pipeline operation disabled. -/
def cfgAllOff : Config :=
  ⟨⟨1200, 1200⟩, "JPEG", 95, ⟨false, false, false, false⟩, ⟨"#FFFFFF", false⟩⟩

theorem process_image_output_mode_rgb_witness :
    (⟨Mode.RGB, 10, 10, .source 0⟩ : Image).mode = .RGB :=
  process_image_output_mode_rgb removeFnW cfgAllOff ⟨.RGB, 10, 10, .source 0⟩
    ⟨.RGB, 10, 10, .source 0⟩ rfl

/-- C7: the normalize step is idempotent: for every image already in RGB
mode, applying `normalizeRGB` once, and applying it twice, both yield the
image unchanged. -/
theorem normalize_idempotent_on_rgb (image : Image)
    (h : image.mode = Mode.RGB) :
    normalizeRGB image = image ∧ normalizeRGB (normalizeRGB image) = image := by
  have h1 : normalizeRGB image = image := by simp [normalizeRGB, h]
  exact ⟨h1, by rw [h1, h1]⟩

theorem normalize_idempotent_on_rgb_witness :
    normalizeRGB ⟨Mode.RGB, 3, 4, .source 7⟩ = ⟨Mode.RGB, 3, 4, .source 7⟩ ∧
    normalizeRGB (normalizeRGB ⟨Mode.RGB, 3, 4, .source 7⟩) =
      ⟨Mode.RGB, 3, 4, .source 7⟩ :=
  normalize_idempotent_on_rgb ⟨Mode.RGB, 3, 4, .source 7⟩ rfl

end ImgProc

namespace ImgProc

/-- C4: with `operations.resize = true`, the pipeline output's pixel
dimensions equal exactly the configured `dimensions.width` ×
`dimensions.height`, for every input image (any aspect ratio) and every
size-preserving segmentation model. -/
theorem resize_output_dimensions
    (removeFn : Image → Except Err Image) (cfg : Config) (image out : Image)
    (hrem : ∀ i r, removeFn i = .ok r → r.width = i.width ∧ r.height = i.height)
    (hres : cfg.operations.resize = true)
    (h : process_image removeFn cfg image = .ok out) :
    out.width = cfg.dimensions.width ∧ out.height = cfg.dimensions.height := by
  unfold process_image at h
  split at h
  · exact Except.noConfusion h
  · rename_i i3 hS
    injection h with h
    subst h
    obtain ⟨hw, hh⟩ := removalStage_size removeFn cfg _ i3 hrem hS
    obtain ⟨nw, nh⟩ := normalizeRGB_size (enhanceStage cfg i3)
    obtain ⟨ew, eh⟩ := enhanceStage_size cfg i3
    constructor
    · rw [nw, ew, hw]
      simp [resizeStage, hres, resize_contain]
    · rw [nh, eh, hh]
      simp [resizeStage, hres, resize_contain]

/-- The pipeline output for a 10×20 RGB input under the default
configuration (resize and enhance on, removal off). -/
def outW : Image :=
  ⟨.RGB, 1200, 1200,
    .enhanced .sharpness 11 (.enhanced .brightness 11 (.enhanced .contrast 12
      (.converted .RGB (.converted .RGBA (.pasted (.fill 255 255 255 0)
        (.thumbnail 1200 1200 (.source 0)))))))⟩

theorem resize_output_dimensions_witness :
    outW.width = default_config_record.dimensions.width ∧
    outW.height = default_config_record.dimensions.height :=
  resize_output_dimensions removeFnW default_config_record
    ⟨.RGB, 10, 20, .source 0⟩ outW
    (fun i r hr => by
      injection hr with hr
      rw [← hr]
      exact ⟨rfl, rfl⟩)
    rfl rfl

/-- A configuration overriding the background fill color to black, with
background removal enabled. -/
def cfgBlack : Config :=
  ⟨⟨1200, 1200⟩, "JPEG", 95, ⟨false, true, false, false⟩, ⟨"#000000", false⟩⟩

/-- A small RGB foreground input. -/
def imgFg : Image := ⟨.RGB, 2, 2, .source 1⟩

/-- What `removeFnW` returns on `imgFg`. -/
def rFg : Image := ⟨.RGBA, 2, 2, .band 0 (.source 1)⟩

/-- What the code composites `rFg` onto: a white canvas. -/
def codeCompositeOut : Image :=
  ⟨.RGB, 2, 2, .pastedMask (.fill 255 255 255 255) (.band 0 (.source 1))
    (.band 3 (.band 0 (.source 1)))⟩

/-- What the spec's words demand for `cfgBlack`: a black canvas. -/
def specCompositeOut : Image :=
  ⟨.RGB, 2, 2, .pastedMask (.fill 0 0 0 255) (.band 0 (.source 1))
    (.band 3 (.band 0 (.source 1)))⟩

/-- C2 counterexample: with `backgrounds.default_color` configured to
`#000000` and a segmentation output with an alpha channel, the code
composites onto a *white* background (`Image.new('RGB', size, 'white')`
at app.py line 71), not onto the configured fill color as the claim
states: the two composites differ. -/
theorem removal_composite_not_configured_color :
    cfgBlack.operations.remove_background = true ∧
    removeFnW imgFg = Except.ok rFg ∧
    rFg.mode = Mode.RGBA ∧
    removalStage removeFnW cfgBlack imgFg = Except.ok codeCompositeOut ∧
    composite_spec cfgBlack rFg = specCompositeOut ∧
    codeCompositeOut ≠ specCompositeOut :=
  ⟨rfl, rfl, rfl, rfl, rfl, by decide⟩

/-- C2 amended: in the background-removal stage, whenever the
segmentation output has an alpha channel, the pipeline composites it onto
an opaque *white* background of the same size using the alpha channel as
the blend mask, producing an RGB image; this agrees with the configured
`backgrounds.default_color` exactly when that color resolves to white (as
the default `#FFFFFF` does). -/
theorem removal_composite_white_background
    (removeFn : Image → Except Err Image) (cfg : Config) (image r : Image)
    (hb : cfg.operations.remove_background = true)
    (hr : removeFn image = .ok r) (hm : r.mode = Mode.RGBA) :
    removalStage removeFn cfg image =
      .ok ((Image.new .RGB r.width r.height "white").paste r (.band 3 r.data)) ∧
    ((Image.new .RGB r.width r.height "white").paste r (.band 3 r.data)).mode
      = Mode.RGB ∧
    ((Image.new .RGB r.width r.height "white").paste r (.band 3 r.data)).width
      = r.width ∧
    ((Image.new .RGB r.width r.height "white").paste r (.band 3 r.data)).height
      = r.height ∧
    (parseColor cfg.backgrounds.default_color = parseColor "white" →
      removalStage removeFn cfg image = .ok (composite_spec cfg r)) := by
  have hmain : removalStage removeFn cfg image =
      .ok ((Image.new .RGB r.width r.height "white").paste r (.band 3 r.data)) := by
    simp [removalStage, hb, hr, hm]
  refine ⟨hmain, rfl, rfl, rfl, fun hc => ?_⟩
  have hspec : composite_spec cfg r =
      (Image.new .RGB r.width r.height "white").paste r (.band 3 r.data) := by
    simp [composite_spec, hm, Image.new, hc]
  rw [hspec]
  exact hmain

/-- The default configuration with background removal switched on. -/
def cfgRemove : Config :=
  ⟨⟨1200, 1200⟩, "JPEG", 95, ⟨true, true, true, false⟩, ⟨"#FFFFFF", false⟩⟩

/-- A small RGB input for the removal-stage witness. -/
def imgRm : Image := ⟨.RGB, 5, 6, .source 2⟩

/-- What `removeFnW` returns on `imgRm`. -/
def rRm : Image := ⟨.RGBA, 5, 6, .band 0 (.source 2)⟩

theorem removal_composite_white_background_witness :
    removalStage removeFnW cfgRemove imgRm =
      .ok ((Image.new .RGB rRm.width rRm.height "white").paste rRm
        (.band 3 rRm.data)) ∧
    ((Image.new .RGB rRm.width rRm.height "white").paste rRm
      (.band 3 rRm.data)).mode = Mode.RGB ∧
    ((Image.new .RGB rRm.width rRm.height "white").paste rRm
      (.band 3 rRm.data)).width = rRm.width ∧
    ((Image.new .RGB rRm.width rRm.height "white").paste rRm
      (.band 3 rRm.data)).height = rRm.height ∧
    (parseColor cfgRemove.backgrounds.default_color = parseColor "white" →
      removalStage removeFnW cfgRemove imgRm =
        .ok (composite_spec cfgRemove rRm)) :=
  removal_composite_white_background removeFnW cfgRemove imgRm rRm rfl rfl rfl

/-- A model of `Image.open`: stream 0 is a corrupt byte stream that
raises; every other stream decodes to a small RGB image. -/
def decodeW : Nat → Except Err Image :=
  fun n =>
    if n = 0 then .error "cannot identify image file"
    else .ok ⟨.RGB, 4, 3, .source n⟩

/-- A model of `image.save`: encodes any image to an abstract token. -/
def encodePrimW : String → Nat → Image → Except Err Bytes :=
  fun _ _ image => .ok image.width

/-- A constant clock. -/
def stampW : Nat → String := fun _ => "20260101_000000"

/-- A request whose multipart form lacks the `images` field. -/
def reqNone : Request := ⟨["resize"], none⟩

/-- C5: a `POST /process` request without the `images` field is answered
with status 400 and plain-text body exactly `No files uploaded`, whatever
the decode/process/encode primitives would do (no file is touched). -/
theorem missing_images_field_400
    (decode : Nat → Except Err Image) (removeFn : Image → Except Err Image)
    (encodePrim : String → Nat → Image → Except Err Bytes)
    (stamp : Nat → String) (cfg : Config) (req : Request)
    (h : req.files = none) :
    (process_images decode removeFn encodePrim stamp cfg req).2.1 =
      ⟨400, .text "No files uploaded"⟩ := by
  simp [process_images, h]

theorem missing_images_field_400_witness :
    (process_images decodeW removeFnW encodePrimW stampW
      default_config_record reqNone).2.1 = ⟨400, Body.text "No files uploaded"⟩ :=
  missing_images_field_400 decodeW removeFnW encodePrimW stampW
    default_config_record reqNone rfl

/-- C8: the handler updates the process-wide operation flags from the
form *before* checking for the `images` field, so a request answered 400
still mutates the shared configuration's operations map. -/
theorem options_updated_before_images_check
    (decode : Nat → Except Err Image) (removeFn : Image → Except Err Image)
    (encodePrim : String → Nat → Image → Except Err Bytes)
    (stamp : Nat → String) (cfg : Config) (req : Request)
    (h : req.files = none) :
    (process_images decode removeFn encodePrim stamp cfg req).1.operations =
      ⟨req.form.contains "resize", req.form.contains "remove_background",
       req.form.contains "enhance", cfg.operations.watermark⟩ ∧
    (process_images decode removeFn encodePrim stamp cfg req).2.1.status = 400 := by
  simp [process_images, h, updateOps]

/-- A 400-bound request that still flips the shared flags. -/
def reqRB : Request := ⟨["remove_background"], none⟩

theorem options_updated_before_images_check_witness :
    (process_images decodeW removeFnW encodePrimW stampW
      default_config_record reqRB).1.operations = ⟨false, true, false, false⟩ ∧
    (process_images decodeW removeFnW encodePrimW stampW
      default_config_record reqRB).2.1.status = 400 :=
  options_updated_before_images_check decodeW removeFnW encodePrimW stampW
    default_config_record reqRB rfl

/-- C9: handling a `POST /process` request changes at most the three
operation flags; dimensions, output format, quality, backgrounds and the
watermark flag of the process-wide configuration are left unchanged. -/
theorem handler_preserves_other_config_fields
    (decode : Nat → Except Err Image) (removeFn : Image → Except Err Image)
    (encodePrim : String → Nat → Image → Except Err Bytes)
    (stamp : Nat → String) (cfg : Config) (req : Request) :
    (process_images decode removeFn encodePrim stamp cfg req).1.dimensions
      = cfg.dimensions ∧
    (process_images decode removeFn encodePrim stamp cfg req).1.output_format
      = cfg.output_format ∧
    (process_images decode removeFn encodePrim stamp cfg req).1.quality
      = cfg.quality ∧
    (process_images decode removeFn encodePrim stamp cfg req).1.backgrounds
      = cfg.backgrounds ∧
    (process_images decode removeFn encodePrim stamp cfg req).1.operations.watermark
      = cfg.operations.watermark := by
  cases hf : req.files with
  | none => simp [process_images, hf, updateOps]
  | some files => simp [process_images, hf, updateOps]

end ImgProc

namespace ImgProc

/-! ## Lookup characterization of the shallow dict merge -/

theorem lookup_append (l1 l2 : List (String × Yaml)) (k : String) :
    (l1 ++ l2).lookup k = (l1.lookup k).or (l2.lookup k) := by
  induction l1 with
  | nil => rfl
  | cons a tl ih =>
    obtain ⟨ka, va⟩ := a
    cases h : k == ka with
    | true => simp [List.lookup, h, Option.or]
    | false => simp [List.lookup, h, ih]

theorem lookup_map_override (o d : List (String × Yaml)) (k : String) :
    (d.map (fun kv =>
      match o.lookup kv.1 with
      | some v => (kv.1, v)
      | none => kv)).lookup k =
      match d.lookup k with
      | some v => (o.lookup k).or (some v)
      | none => none := by
  induction d with
  | nil => rfl
  | cons a tl ih =>
    obtain ⟨ka, va⟩ := a
    cases hoa : o.lookup ka with
    | some v =>
      cases h : k == ka with
      | true =>
        have hk : k = ka := by simpa using h
        subst hk
        simp [List.lookup, hoa, Option.or]
      | false =>
        simp [List.lookup, h, hoa, ih]
    | none =>
      cases h : k == ka with
      | true =>
        have hk : k = ka := by simpa using h
        subst hk
        simp [List.lookup, hoa, Option.or]
      | false =>
        simp [List.lookup, h, hoa, ih]

theorem lookup_filter_new (d o : List (String × Yaml)) (k : String) :
    (o.filter (fun kv => (d.lookup kv.1).isNone)).lookup k =
      match d.lookup k with
      | some _ => none
      | none => o.lookup k := by
  induction o with
  | nil => cases hd : d.lookup k <;> simp [List.lookup, hd]
  | cons a tl ih =>
    obtain ⟨ko, vo⟩ := a
    cases hdo : d.lookup ko with
    | some v =>
      cases h : k == ko with
      | true =>
        have hk : k = ko := by simpa using h
        subst hk
        simp [List.filter, List.lookup, hdo, ih]
      | false =>
        simp [List.filter, List.lookup, h, hdo, ih]
    | none =>
      cases h : k == ko with
      | true =>
        have hk : k = ko := by simpa using h
        subst hk
        simp [List.filter, List.lookup, hdo]
      | false =>
        simp [List.filter, List.lookup, h, hdo, ih]

theorem mergeDicts_lookup (d o : List (String × Yaml)) (k : String) :
    (mergeDicts d o).lookup k = (o.lookup k).or (d.lookup k) := by
  unfold mergeDicts
  rw [lookup_append, lookup_map_override, lookup_filter_new]
  cases hd : d.lookup k <;> cases ho : o.lookup k <;> simp [Option.or]

/-- C6: the loader returns the fixed default record when no path is given
or the file is absent, and when the path names an existing parseable
mapping it shallow-merges: each top-level key of the file replaces the
corresponding default wholesale (`lookup` of the merge is the override's
value when the key is overridden, the default's otherwise). -/
theorem load_config_defaults_and_shallow_merge :
    (∀ fs, load_config fs none = .ok default_config) ∧
    (∀ fs p, fs p = none → load_config fs (some p) = .ok default_config) ∧
    (∀ fs p o, p ≠ "" → fs p = some (.mapping o) →
      load_config fs (some p) = .ok (mergeDicts default_config o)) ∧
    (∀ o k, (mergeDicts default_config o).lookup k =
      (o.lookup k).or (default_config.lookup k)) ∧
    default_config =
      [("dimensions", .mapping [("width", .nat 1200), ("height", .nat 1200)]),
       ("output_format", .str "JPEG"),
       ("quality", .nat 95),
       ("operations", .mapping
         [("resize", .bool true), ("remove_background", .bool false),
          ("enhance", .bool true), ("watermark", .bool false)]),
       ("backgrounds", .mapping
         [("default_color", .str "#FFFFFF"), ("gradient", .bool false)])] := by
  refine ⟨fun fs => rfl, fun fs p hf => ?_, fun fs p o hp hf => ?_,
    fun o k => mergeDicts_lookup _ _ _, rfl⟩
  · by_cases hp : p = "" <;> simp [load_config, hp, hf]
  · simp [load_config, hp, hf]

/-- A one-key override file: `dimensions: {width: 800}` with no height. -/
def overrideDims : List (String × Yaml) :=
  [("dimensions", .mapping [("width", .nat 800)])]

/-- A file system with exactly one config file holding `overrideDims`. -/
def exampleFs : String → Option Yaml :=
  fun p => if p = "config.yaml" then some (.mapping overrideDims) else none

theorem load_config_defaults_and_shallow_merge_witness :
    load_config exampleFs (some "config.yaml") =
      .ok (mergeDicts default_config overrideDims) ∧
    (mergeDicts default_config overrideDims).lookup "dimensions" =
      (overrideDims.lookup "dimensions").or
        (default_config.lookup "dimensions") ∧
    (mergeDicts default_config overrideDims).lookup "dimensions" =
      some (.mapping [("width", .nat 800)]) :=
  ⟨load_config_defaults_and_shallow_merge.2.2.1 exampleFs "config.yaml"
      overrideDims (by decide) rfl,
   load_config_defaults_and_shallow_merge.2.2.2.1 overrideDims "dimensions",
   rfl⟩

/-- C10: if the configuration path names an existing file whose content
parses to anything other than a mapping (for example an empty file, which
YAML parses to null), the loader raises an error at startup: the merge of
defaults with a non-mapping fails. -/
theorem load_config_non_mapping_errors
    (fs : String → Option Yaml) (p : String) (y : Yaml)
    (hp : p ≠ "") (hf : fs p = some y) (hy : ∀ m, y ≠ .mapping m) :
    load_config fs (some p) =
      .error "TypeError: parsed config is not a mapping" := by
  cases y with
  | null => simp [load_config, if_neg hp, hf]
  | bool b => simp [load_config, if_neg hp, hf]
  | nat n => simp [load_config, if_neg hp, hf]
  | str s => simp [load_config, if_neg hp, hf]
  | mapping m => exact absurd rfl (hy m)

/-- A file system where `config.yaml` exists but is empty (YAML null). -/
def emptyFileFs : String → Option Yaml :=
  fun p => if p = "config.yaml" then some .null else none

theorem load_config_non_mapping_errors_witness :
    load_config emptyFileFs (some "config.yaml") =
      .error "TypeError: parsed config is not a mapping" :=
  load_config_non_mapping_errors emptyFileFs "config.yaml" .null (by decide)
    rfl (fun m h => Yaml.noConfusion h)

end ImgProc

namespace ImgProc

/-! ## Batch-loop characterization -/

theorem processLoop_entries (step : UploadedFile → Except Err Bytes)
    (stamp : Nat → String) (files : List UploadedFile) (t : Nat) :
    (processLoop step stamp files t).1.map Prod.snd
      = (files.filter (fun f => f.filename ≠ "")).filterMap
          (fun f => (step f).toOption) := by
  induction files generalizing t with
  | nil => rfl
  | cons f rest ih =>
    by_cases hf : f.filename = ""
    · simp [processLoop, hf, ih t]
    · cases hs : step f with
      | ok b => simp [processLoop, hf, hs, ih (t + 1), Except.toOption]
      | error e => simp [processLoop, hf, hs, ih t, Except.toOption]

theorem processLoop_logs (step : UploadedFile → Except Err Bytes)
    (stamp : Nat → String) (files : List UploadedFile) (t : Nat) :
    (processLoop step stamp files t).2.1
      = (files.filter (fun f => f.filename ≠ "")).filterMap
          (fun f =>
            match step f with
            | .error e => some ("Error processing " ++ f.filename ++ ": " ++ e)
            | .ok _ => none) := by
  induction files generalizing t with
  | nil => rfl
  | cons f rest ih =>
    by_cases hf : f.filename = ""
    · simp [processLoop, hf, ih t]
    · cases hs : step f with
      | ok b => simp [processLoop, hf, hs, ih (t + 1)]
      | error e => simp [processLoop, hf, hs, ih t]

/-- C3: for every batch of uploads, a failure while decoding, processing
or encoding one file only skips that file: the handler returns status
200, the archive holds exactly one entry per (nonempty-named) file whose
decode/process/encode chain succeeded, in order, and exactly the failing
files get an error log line naming them. -/
theorem batch_isolates_per_file_failures
    (decode : Nat → Except Err Image) (removeFn : Image → Except Err Image)
    (encodePrim : String → Nat → Image → Except Err Bytes)
    (stamp : Nat → String) (cfg : Config) (req : Request)
    (files : List UploadedFile) (h : req.files = some files) :
    (process_images decode removeFn encodePrim stamp cfg req).2.1.status
      = 200 ∧
    (archiveEntries
        (process_images decode removeFn encodePrim stamp cfg req).2.1.body).map
        Prod.snd
      = (files.filter (fun f => f.filename ≠ "")).filterMap
          (fun f =>
            (fileResult decode removeFn encodePrim (updateOps cfg req.form)
              f).toOption) ∧
    (process_images decode removeFn encodePrim stamp cfg req).2.2
      = (files.filter (fun f => f.filename ≠ "")).filterMap
          (fun f =>
            match fileResult decode removeFn encodePrim (updateOps cfg req.form)
                f with
            | .error e => some ("Error processing " ++ f.filename ++ ": " ++ e)
            | .ok _ => none) := by
  refine ⟨?_, ?_, ?_⟩ <;>
    simp [process_images, h, archiveEntries, processLoop_entries,
      processLoop_logs]

/-- Three uploads, the second a corrupt byte stream (stream 0). -/
def filesW : List UploadedFile :=
  [⟨"a.png", 1⟩, ⟨"bad.bin", 0⟩, ⟨"c.jpg", 2⟩]

/-- A request carrying `filesW` with resize and enhance checked. -/
def reqW : Request := ⟨["resize", "enhance"], some filesW⟩

theorem batch_isolates_per_file_failures_witness :
    (process_images decodeW removeFnW encodePrimW stampW
      default_config_record reqW).2.1.status = 200 ∧
    (archiveEntries
        (process_images decodeW removeFnW encodePrimW stampW
          default_config_record reqW).2.1.body).map Prod.snd
      = (filesW.filter (fun f => f.filename ≠ "")).filterMap
          (fun f =>
            (fileResult decodeW removeFnW encodePrimW
              (updateOps default_config_record reqW.form) f).toOption) ∧
    (process_images decodeW removeFnW encodePrimW stampW
      default_config_record reqW).2.2
      = (filesW.filter (fun f => f.filename ≠ "")).filterMap
          (fun f =>
            match fileResult decodeW removeFnW encodePrimW
                (updateOps default_config_record reqW.form) f with
            | .error e => some ("Error processing " ++ f.filename ++ ": " ++ e)
            | .ok _ => none) :=
  batch_isolates_per_file_failures decodeW removeFnW encodePrimW stampW
    default_config_record reqW filesW rfl

end ImgProc
